import Mathlib

/-!
Shallow embedding of `pkg/k8s/util.go` from the escalator repository,
and verification of the specified properties of its two aggregators,
`CalculatePodsRequestedUsage` and `CalculateNodesCapacity`.

Modelling conventions:
* `resource.Quantity` values are modelled as exact integers (`Int`),
  CPU quantities in milli-units (the code only ever reads them through
  `MilliValue()` and constructs them through `NewCPUQuantity`, which
  builds a milli-quantity), memory quantities in bytes (read through
  `Value()`, built through `NewMemoryQuantity`).
* `scheduler.ComputePodResourceRequest` is an external collaborator
  (out of scope per the spec); it is modelled as reading a per-pod
  record of the computed request, stored on the pod model.
* The Go `map[string][]*v1.Pod` built by `mapPods` is only ever read by
  key lookup, so it is modelled as a total function `String → List Pod`
  with absent keys mapping to `[]` (Go's zero value for a slice read
  from a map).
* The Go loops are modelled as left folds over the input lists with the
  loop bodies as explicit step functions.
-/

/-- The computed resource request of one pod: CPU in milli-units and
memory in bytes (Go `schedulernodeinfo.Resource` fields used here). -/
structure PodResources where
  milliCPU : Int
  memory : Int
deriving DecidableEq, Repr

/-- One entry of `pod.Status.Conditions` (`v1.PodCondition`): its
condition type and its status, both string-valued in the API. -/
structure PodCondition where
  condType : String
  condStatus : String
deriving DecidableEq, Repr

/-- The part of `v1.PodStatus` read by `util.go`: the phase, the
condition list, and the nominated node name. -/
structure PodStatus where
  phase : String
  conditions : List PodCondition
  nominatedNodeName : String
deriving DecidableEq, Repr

/-- The part of a `v1.Pod` read by `util.go`, together with the request
that the external collaborator `scheduler.ComputePodResourceRequest`
computes for it (modelled as data carried by the pod). -/
structure Pod where
  status : PodStatus
  request : PodResources
deriving DecidableEq, Repr

/-- External collaborator `scheduler.ComputePodResourceRequest`,
modelled as reading the pod's recorded computed request. -/
def ComputePodResourceRequest (pod : Pod) : PodResources :=
  pod.request

/-- Go `ResourceItem`: a (CPU, Memory) pair; CPU in milli-units, memory in
bytes, matching how the Go code reads its `resource.Quantity` fields. -/
structure ResourceItem where
  cpu : Int
  memory : Int
deriving DecidableEq, Repr

/-- Go `newEmptyResourceItem`. -/
def newEmptyResourceItem : ResourceItem :=
  { cpu := 0, memory := 0 }

/-- Go `newResourceItem(cpu, memory)`: CPU milli-units and memory bytes. -/
def newResourceItem (cpu : Int) (memory : Int) : ResourceItem :=
  { cpu := cpu, memory := memory }

/-- Go `PodRequestedUsage`. -/
structure PodRequestedUsage where
  Total : ResourceItem
  LargestMemory : ResourceItem
  LargestCPU : ResourceItem
deriving DecidableEq, Repr

/-- Go `NodeAvailableCapacity`. -/
structure NodeAvailableCapacity where
  Total : ResourceItem
  LargestAvailableMemory : ResourceItem
  LargestAvailableCPU : ResourceItem
deriving DecidableEq, Repr

/-- Go `NewPodRequestedUsage`. -/
def NewPodRequestedUsage : PodRequestedUsage :=
  { Total := newEmptyResourceItem
    LargestMemory := newEmptyResourceItem
    LargestCPU := newEmptyResourceItem }

/-- Go `newNodeAvailableCapacity`. -/
def newNodeAvailableCapacity : NodeAvailableCapacity :=
  { Total := newEmptyResourceItem
    LargestAvailableMemory := newEmptyResourceItem
    LargestAvailableCPU := newEmptyResourceItem }

/-- Loop body of `CalculatePodsRequestedUsage`: add the pod's computed
request into `Total`; then, only when the phase is `Pending`, replace
`LargestMemory` (resp. `LargestCPU`) with the pod's full pair when its
memory (resp. CPU) strictly exceeds the current field. -/
def podUsageStep (ret : PodRequestedUsage) (pod : Pod) : PodRequestedUsage :=
  let podResources := ComputePodResourceRequest pod
  let ret1 : PodRequestedUsage :=
    { ret with Total := { cpu := ret.Total.cpu + podResources.milliCPU,
                          memory := ret.Total.memory + podResources.memory } }
  if pod.status.phase = "Pending" then
    let ret2 : PodRequestedUsage :=
      if podResources.memory > ret1.LargestMemory.memory then
        { ret1 with LargestMemory := newResourceItem podResources.milliCPU podResources.memory }
      else ret1
    if podResources.milliCPU > ret2.LargestCPU.cpu then
      { ret2 with LargestCPU := newResourceItem podResources.milliCPU podResources.memory }
    else ret2
  else ret1

/-- Go `CalculatePodsRequestedUsage` (result value; the Go error return is
modelled separately by `CalculatePodsRequestedUsageE`). -/
def CalculatePodsRequestedUsage (pods : List Pod) : PodRequestedUsage :=
  pods.foldl podUsageStep NewPodRequestedUsage

/-- Go `CalculatePodsRequestedUsage` with its `(result, error)` signature;
the Go function ends in `return ret, nil`, with no other return. -/
def CalculatePodsRequestedUsageE (pods : List Pod) :
    PodRequestedUsage × Option String :=
  (CalculatePodsRequestedUsage pods, none)

/-- The part of `v1.Node` read by `util.go`: its name and its
allocatable (CPU milli-units, memory bytes) from `node.Status`. -/
structure Node where
  name : String
  allocatable : ResourceItem
deriving DecidableEq, Repr

/-- Go `mapPods`: group pods by `pod.Status.NominatedNodeName`, appending
in input order; modelled as the lookup function of the resulting map,
with absent keys reading as the empty list. -/
def mapPods (pods : List Pod) : String → List Pod :=
  pods.foldl
    (fun ret pod => fun name =>
      if name = pod.status.nominatedNodeName then ret name ++ [pod] else ret name)
    (fun _ => [])

/-- Loop of `isPodScheduled` over the condition list: return at the FIRST
condition whose type is `PodScheduled`, with value `status == True`. -/
def isPodScheduledAux : List PodCondition → Bool
  | [] => false
  | condition :: rest =>
    if condition.condType = "PodScheduled" then condition.condStatus = "True"
    else isPodScheduledAux rest

/-- Go `isPodScheduled`. -/
def isPodScheduled (pod : Pod) : Bool :=
  isPodScheduledAux pod.status.conditions

/-- Go `isPodUsingNodeResources`. -/
def isPodUsingNodeResources (pod : Pod) : Bool :=
  isPodScheduled pod &&
    (pod.status.phase = "Pending" || pod.status.phase = "Running")

/-- Go `sumByFunc`: fold over the pods, adding `f pod` only for pods that
pass `isPodUsingNodeResources`. -/
def sumByFunc (pods : List Pod) (f : Pod → Int) : Int :=
  pods.foldl (fun ret pod => if isPodUsingNodeResources pod then ret + f pod else ret) 0

/-- Go `GetNodeAvailableResources`: allocatable minus the gated sums of the
pods grouped under the node's name. -/
def GetNodeAvailableResources (node : Node) (pods : String → List Pod) : ResourceItem :=
  let filteredPods := pods node.name
  let usedCpu := sumByFunc filteredPods (fun pod => (ComputePodResourceRequest pod).milliCPU)
  let usedMemory := sumByFunc filteredPods (fun pod => (ComputePodResourceRequest pod).memory)
  newResourceItem (node.allocatable.cpu - usedCpu) (node.allocatable.memory - usedMemory)

/-- Loop body of `CalculateNodesCapacity`: add the node's allocatable
pair into `Total` unconditionally; replace `LargestAvailableCPU` (resp.
`LargestAvailableMemory`) with the node's full ALLOCATABLE pair when the
node's available CPU (resp. memory) strictly exceeds the current field. -/
def nodeCapacityStep (mappedPods : String → List Pod)
    (ret : NodeAvailableCapacity) (node : Node) : NodeAvailableCapacity :=
  let ret1 : NodeAvailableCapacity :=
    { ret with Total := { cpu := ret.Total.cpu + node.allocatable.cpu,
                          memory := ret.Total.memory + node.allocatable.memory } }
  let availableResource := GetNodeAvailableResources node mappedPods
  let ret2 : NodeAvailableCapacity :=
    if availableResource.cpu > ret1.LargestAvailableCPU.cpu then
      { ret1 with LargestAvailableCPU :=
          { cpu := node.allocatable.cpu, memory := node.allocatable.memory } }
    else ret1
  if availableResource.memory > ret2.LargestAvailableMemory.memory then
    { ret2 with LargestAvailableMemory :=
        { cpu := node.allocatable.cpu, memory := node.allocatable.memory } }
  else ret2

/-- Go `CalculateNodesCapacity` (result value; error modelled separately). -/
def CalculateNodesCapacity (nodes : List Node) (pods : List Pod) : NodeAvailableCapacity :=
  nodes.foldl (nodeCapacityStep (mapPods pods)) newNodeAvailableCapacity

/-- Go `CalculateNodesCapacity` with its `(result, error)` signature; the
Go function ends in `return ret, nil`, with no other return. -/
def CalculateNodesCapacityE (nodes : List Node) (pods : List Pod) :
    NodeAvailableCapacity × Option String :=
  (CalculateNodesCapacity nodes pods, none)

/-- The lookup at any key of the map built by `mapPods` is exactly the
input-order sublist of pods whose nominated node name is that key. -/
theorem mapPods_apply (pods : List Pod) (name : String) :
    mapPods pods name =
      pods.filter (fun p => decide (p.status.nominatedNodeName = name)) := by
  have go : ∀ (l : List Pod) (m : String → List Pod) (name : String),
      l.foldl
        (fun ret pod => fun k =>
          if k = pod.status.nominatedNodeName then ret k ++ [pod] else ret k)
        m name =
      m name ++ l.filter (fun p => decide (p.status.nominatedNodeName = name)) := by
    intro l
    induction l with
    | nil => intro m name; simp
    | cons p rest ih =>
      intro m name
      by_cases h : name = p.status.nominatedNodeName
      · simp [List.foldl_cons, ih, h, List.filter_cons]
      · have h2 : ¬ p.status.nominatedNodeName = name := fun hh => h hh.symm
        simp [List.foldl_cons, ih, h, h2, List.filter_cons]
  simpa using go pods (fun _ => []) name

/-- Evaluation of `sumByFunc`: it equals the sum of `f` over the pods passing the
`isPodUsingNodeResources` gate. -/
theorem sumByFunc_eq (pods : List Pod) (f : Pod → Int) :
    sumByFunc pods f = ((pods.filter isPodUsingNodeResources).map f).sum := by
  have go : ∀ (l : List Pod) (acc : Int),
      l.foldl (fun ret pod => if isPodUsingNodeResources pod then ret + f pod else ret) acc =
        acc + ((l.filter isPodUsingNodeResources).map f).sum := by
    intro l
    induction l with
    | nil => intro acc; simp
    | cons p rest ih =>
      intro acc
      by_cases h : isPodUsingNodeResources p
      · simp [List.foldl_cons, h, ih, List.filter_cons]; ring
      · simp [List.foldl_cons, h, ih, List.filter_cons]
  simpa using go pods 0

/-- C7: `mapPods` places every supplied pod in exactly one group, keyed
by its nominated node name (empty/unset names grouped under the empty
key), and each group lists its pods in input order: the group at any
key is the input-order filter of the pods carrying that key, and a pod
is in the group at a key iff it is an input pod with that key. -/
theorem claim7_mapPods_grouping :
    (∀ (pods : List Pod) (name : String),
      mapPods pods name =
        pods.filter (fun p => decide (p.status.nominatedNodeName = name))) ∧
    (∀ (pods : List Pod) (p : Pod) (name : String),
      p ∈ mapPods pods name ↔ p ∈ pods ∧ p.status.nominatedNodeName = name) := by
  refine ⟨mapPods_apply, ?_⟩
  intro pods p name
  rw [mapPods_apply]
  simp [List.mem_filter]

/-- C2: `GetNodeAvailableResources` returns allocatable CPU minus the
summed CPU requests of exactly the pods grouped under the node's name
that pass `isPodUsingNodeResources` (scheduled and Pending/Running),
analogously for memory; gated-out pods do not reduce the result; and
the result can be negative and is returned unclamped (witnessed by a
concrete over-committed node). -/
theorem claim2_node_available_resources :
    (∀ (node : Node) (pods : List Pod),
      (GetNodeAvailableResources node (mapPods pods)).cpu =
        node.allocatable.cpu -
          ((pods.filter (fun p =>
              decide (p.status.nominatedNodeName = node.name) &&
                isPodUsingNodeResources p)).map
            (fun p => (ComputePodResourceRequest p).milliCPU)).sum ∧
      (GetNodeAvailableResources node (mapPods pods)).memory =
        node.allocatable.memory -
          ((pods.filter (fun p =>
              decide (p.status.nominatedNodeName = node.name) &&
                isPodUsingNodeResources p)).map
            (fun p => (ComputePodResourceRequest p).memory)).sum) ∧
    GetNodeAvailableResources
        { name := "n1", allocatable := { cpu := 1000, memory := 1000 } }
        (mapPods [{ status := { phase := "Running",
                                conditions := [{ condType := "PodScheduled",
                                                 condStatus := "True" }],
                                nominatedNodeName := "n1" },
                    request := { milliCPU := 1500, memory := 2000 } }]) =
      { cpu := -500, memory := -1000 } := by
  constructor
  · intro node pods
    constructor
    · simp [GetNodeAvailableResources, mapPods_apply, sumByFunc_eq,
        List.filter_filter, newResourceItem, Bool.and_comm]
    · simp [GetNodeAvailableResources, mapPods_apply, sumByFunc_eq,
        List.filter_filter, newResourceItem, Bool.and_comm]
  · decide

/-- The full (CPU, Memory) pair of a pod's computed request, as stored
into the `Largest` fields by the aggregator. -/
def podPair (pod : Pod) : ResourceItem :=
  newResourceItem (ComputePodResourceRequest pod).milliCPU (ComputePodResourceRequest pod).memory

/-- Projection of the `Largest` tracking performed by `podUsageStep`
onto a single `ResourceItem` slot, parameterised by the compared
dimension `val` (`val = memory` gives the `LargestMemory` tracking,
`val = cpu` the `LargestCPU` tracking). -/
def pendingTrack (val : ResourceItem → Int) (acc : ResourceItem) (pod : Pod) : ResourceItem :=
  if pod.status.phase = "Pending" ∧ val acc < val (podPair pod) then podPair pod else acc

/-- Step lemma: `podUsageStep` updates `Total` by adding the pod's request. -/
theorem podUsageStep_Total (ret : PodRequestedUsage) (pod : Pod) :
    (podUsageStep ret pod).Total =
      { cpu := ret.Total.cpu + (ComputePodResourceRequest pod).milliCPU,
        memory := ret.Total.memory + (ComputePodResourceRequest pod).memory } := by
  simp only [podUsageStep]
  by_cases hp : pod.status.phase = "Pending"
  all_goals simp [hp]
  all_goals split
  all_goals try split
  all_goals rfl

/-- Step lemma: `podUsageStep` updates `LargestMemory` exactly as `pendingTrack`
on the memory dimension. -/
theorem podUsageStep_LargestMemory (ret : PodRequestedUsage) (pod : Pod) :
    (podUsageStep ret pod).LargestMemory =
      pendingTrack (fun r => r.memory) ret.LargestMemory pod := by
  simp only [podUsageStep, pendingTrack, podPair, newResourceItem, gt_iff_lt]
  by_cases hp : pod.status.phase = "Pending" <;> simp [hp]
  by_cases hm : ret.LargestMemory.memory < (ComputePodResourceRequest pod).memory <;>
    simp [hm] <;> split <;> rfl

/-- Step lemma: `podUsageStep` updates `LargestCPU` exactly as `pendingTrack` on
the CPU dimension. -/
theorem podUsageStep_LargestCPU (ret : PodRequestedUsage) (pod : Pod) :
    (podUsageStep ret pod).LargestCPU =
      pendingTrack (fun r => r.cpu) ret.LargestCPU pod := by
  simp only [podUsageStep, pendingTrack, podPair, newResourceItem, gt_iff_lt]
  by_cases hp : pod.status.phase = "Pending" <;> simp [hp]
  by_cases hc : ret.LargestCPU.cpu < (ComputePodResourceRequest pod).milliCPU <;>
    simp [hc] <;> split <;> rfl

/-- The fold of `podUsageStep` accumulates `Total` as the plain sums of
the computed requests. -/
theorem foldl_podUsageStep_Total (l : List Pod) :
    ∀ acc : PodRequestedUsage,
      ((l.foldl podUsageStep acc).Total.cpu =
        acc.Total.cpu + (l.map (fun p => (ComputePodResourceRequest p).milliCPU)).sum ∧
       (l.foldl podUsageStep acc).Total.memory =
        acc.Total.memory + (l.map (fun p => (ComputePodResourceRequest p).memory)).sum) := by
  induction l with
  | nil => intro acc; simp
  | cons p rest ih =>
    intro acc
    have h := podUsageStep_Total acc p
    constructor
    · rw [List.foldl_cons, (ih (podUsageStep acc p)).1, h]
      simp; ring
    · rw [List.foldl_cons, (ih (podUsageStep acc p)).2, h]
      simp; ring

/-- The `LargestMemory` component of the fold is the fold of the
projected memory tracking. -/
theorem foldl_podUsageStep_LargestMemory (l : List Pod) :
    ∀ acc : PodRequestedUsage,
      (l.foldl podUsageStep acc).LargestMemory =
        l.foldl (pendingTrack (fun r => r.memory)) acc.LargestMemory := by
  induction l with
  | nil => intro acc; rfl
  | cons p rest ih =>
    intro acc
    rw [List.foldl_cons, List.foldl_cons, ih, podUsageStep_LargestMemory]

/-- The `LargestCPU` component of the fold is the fold of the projected
CPU tracking. -/
theorem foldl_podUsageStep_LargestCPU (l : List Pod) :
    ∀ acc : PodRequestedUsage,
      (l.foldl podUsageStep acc).LargestCPU =
        l.foldl (pendingTrack (fun r => r.cpu)) acc.LargestCPU := by
  induction l with
  | nil => intro acc; rfl
  | cons p rest ih =>
    intro acc
    rw [List.foldl_cons, List.foldl_cons, ih, podUsageStep_LargestCPU]

/-- If no pending pod in the list strictly exceeds the accumulator in
the tracked dimension, the tracking fold leaves the accumulator. -/
theorem pendingTrack_fold_le (val : ResourceItem → Int) :
    ∀ (l : List Pod) (acc : ResourceItem),
      (∀ q ∈ l, q.status.phase = "Pending" → val (podPair q) ≤ val acc) →
      l.foldl (pendingTrack val) acc = acc := by
  intro l
  induction l with
  | nil => intro acc _; rfl
  | cons x rest ih =>
    intro acc h
    have hx : pendingTrack val acc x = acc := by
      unfold pendingTrack
      rw [if_neg]
      rintro ⟨hp, hlt⟩
      exact absurd hlt (not_lt.mpr (h x (List.mem_cons_self x rest) hp))
    rw [List.foldl_cons, hx]
    exact ih acc (fun q hq hqp => h q (List.mem_cons_of_mem x hq) hqp)

/-- If a pending pod strictly exceeds the accumulator in the tracked
dimension and strictly exceeds every other pending pod of the list,
the tracking fold ends at that pod's pair. -/
theorem pendingTrack_fold_max (val : ResourceItem → Int) :
    ∀ (l : List Pod) (acc : ResourceItem) (p : Pod),
      p ∈ l → p.status.phase = "Pending" → val acc < val (podPair p) →
      (∀ q ∈ l, q.status.phase = "Pending" → q ≠ p →
        val (podPair q) < val (podPair p)) →
      l.foldl (pendingTrack val) acc = podPair p := by
  intro l
  induction l with
  | nil => intro acc p hmem; exact absurd hmem (List.not_mem_nil p)
  | cons x rest ih =>
    intro acc p hmem hp hlt hmax
    rw [List.foldl_cons]
    by_cases hcond : x.status.phase = "Pending" ∧ val acc < val (podPair x)
    · have hstep : pendingTrack val acc x = podPair x := by
        unfold pendingTrack; exact if_pos hcond
      rw [hstep]
      by_cases hxp : x = p
      · subst hxp
        apply pendingTrack_fold_le
        intro q hq hqp
        by_cases hqx : q = x
        · subst hqx; exact le_refl _
        · exact le_of_lt (hmax q (List.mem_cons_of_mem x hq) hqp hqx)
      · have hpmem : p ∈ rest := by
          rcases List.mem_cons.mp hmem with h1 | h1
          · exact absurd h1.symm hxp
          · exact h1
        exact ih (podPair x) p hpmem hp
          (hmax x (List.mem_cons_self x rest) hcond.1 hxp)
          (fun q hq hqp hqne => hmax q (List.mem_cons_of_mem x hq) hqp hqne)
    · have hstep : pendingTrack val acc x = acc := by
        unfold pendingTrack; exact if_neg hcond
      have hxp : ¬ x = p := by
        intro he; subst he; exact hcond ⟨hp, hlt⟩
      have hpmem : p ∈ rest := by
        rcases List.mem_cons.mp hmem with h1 | h1
        · exact absurd h1.symm hxp
        · exact h1
      rw [hstep]
      exact ih acc p hpmem hp hlt
        (fun q hq hqp hqne => hmax q (List.mem_cons_of_mem x hq) hqp hqne)

/-- C1 counterexample: a single Pending pod requesting (CPU 7, memory 0)
is the Pending pod with the strictly largest memory request of its
list, yet `LargestMemory` stays the all-zero pair rather than becoming
that pod's (7, 0) pair, because the tracker starts at zero and only
replaces on strict excess. -/
theorem claim1_counterexample :
    (CalculatePodsRequestedUsage
      [{ status := { phase := "Pending", conditions := [], nominatedNodeName := "" },
         request := { milliCPU := 7, memory := 0 } }]).LargestMemory =
      { cpu := 0, memory := 0 } ∧
    podPair { status := { phase := "Pending", conditions := [], nominatedNodeName := "" },
              request := { milliCPU := 7, memory := 0 } } ≠
      ({ cpu := 0, memory := 0 } : ResourceItem) := by
  decide

/-- C1 (amended): when some Pending pod's memory request is strictly
positive and strictly largest among the Pending pods, `LargestMemory`
is exactly that pod's full (CPU, Memory) pair; independently and
analogously for `LargestCPU` by CPU; and whenever the Pending maximum
is unique, the resulting tracker value is invariant under permuting
the input list (positivity not needed for the invariance). -/
theorem claim1_largest_tracking :
    (∀ (pods : List Pod) (p : Pod),
      p ∈ pods → p.status.phase = "Pending" →
      0 < (ComputePodResourceRequest p).memory →
      (∀ q ∈ pods, q.status.phase = "Pending" → q ≠ p →
        (ComputePodResourceRequest q).memory < (ComputePodResourceRequest p).memory) →
      (CalculatePodsRequestedUsage pods).LargestMemory = podPair p) ∧
    (∀ (pods : List Pod) (p : Pod),
      p ∈ pods → p.status.phase = "Pending" →
      0 < (ComputePodResourceRequest p).milliCPU →
      (∀ q ∈ pods, q.status.phase = "Pending" → q ≠ p →
        (ComputePodResourceRequest q).milliCPU < (ComputePodResourceRequest p).milliCPU) →
      (CalculatePodsRequestedUsage pods).LargestCPU = podPair p) ∧
    (∀ (pods₁ pods₂ : List Pod) (p : Pod),
      pods₁.Perm pods₂ →
      p ∈ pods₁ → p.status.phase = "Pending" →
      (∀ q ∈ pods₁, q.status.phase = "Pending" → q ≠ p →
        (ComputePodResourceRequest q).memory < (ComputePodResourceRequest p).memory) →
      (CalculatePodsRequestedUsage pods₂).LargestMemory =
        (CalculatePodsRequestedUsage pods₁).LargestMemory) ∧
    (∀ (pods₁ pods₂ : List Pod) (p : Pod),
      pods₁.Perm pods₂ →
      p ∈ pods₁ → p.status.phase = "Pending" →
      (∀ q ∈ pods₁, q.status.phase = "Pending" → q ≠ p →
        (ComputePodResourceRequest q).milliCPU < (ComputePodResourceRequest p).milliCPU) →
      (CalculatePodsRequestedUsage pods₂).LargestCPU =
        (CalculatePodsRequestedUsage pods₁).LargestCPU) := by
  have hmemMax : ∀ (pods : List Pod) (p : Pod),
      p ∈ pods → p.status.phase = "Pending" →
      0 < (ComputePodResourceRequest p).memory →
      (∀ q ∈ pods, q.status.phase = "Pending" → q ≠ p →
        (ComputePodResourceRequest q).memory < (ComputePodResourceRequest p).memory) →
      (CalculatePodsRequestedUsage pods).LargestMemory = podPair p := by
    intro pods p hmem hp hpos hmax
    unfold CalculatePodsRequestedUsage
    rw [foldl_podUsageStep_LargestMemory]
    exact pendingTrack_fold_max (fun r => r.memory) pods _ p hmem hp hpos hmax
  have hcpuMax : ∀ (pods : List Pod) (p : Pod),
      p ∈ pods → p.status.phase = "Pending" →
      0 < (ComputePodResourceRequest p).milliCPU →
      (∀ q ∈ pods, q.status.phase = "Pending" → q ≠ p →
        (ComputePodResourceRequest q).milliCPU < (ComputePodResourceRequest p).milliCPU) →
      (CalculatePodsRequestedUsage pods).LargestCPU = podPair p := by
    intro pods p hmem hp hpos hmax
    unfold CalculatePodsRequestedUsage
    rw [foldl_podUsageStep_LargestCPU]
    exact pendingTrack_fold_max (fun r => r.cpu) pods _ p hmem hp hpos hmax
  refine ⟨hmemMax, hcpuMax, ?_, ?_⟩
  · intro pods₁ pods₂ p hperm hmem hp hmax
    rcases lt_or_le 0 (ComputePodResourceRequest p).memory with hpos | hnonpos
    · rw [hmemMax pods₂ p (hperm.mem_iff.mp hmem) hp hpos
        (fun q hq hqp hqne => hmax q (hperm.mem_iff.mpr hq) hqp hqne),
        hmemMax pods₁ p hmem hp hpos hmax]
    · have hall : ∀ (l : List Pod), (∀ q ∈ l, q ∈ pods₁) →
          (CalculatePodsRequestedUsage l).LargestMemory = newEmptyResourceItem := by
        intro l hl
        unfold CalculatePodsRequestedUsage
        rw [foldl_podUsageStep_LargestMemory]
        apply pendingTrack_fold_le
        intro q hq hqp
        by_cases hqe : q = p
        · subst hqe
          simpa [podPair, newResourceItem, NewPodRequestedUsage, newEmptyResourceItem]
            using hnonpos
        · have := hmax q (hl q hq) hqp hqe
          simp only [podPair, newResourceItem, NewPodRequestedUsage, newEmptyResourceItem]
          omega
      rw [hall pods₂ (fun q hq => hperm.mem_iff.mpr hq), hall pods₁ (fun q hq => hq)]
  · intro pods₁ pods₂ p hperm hmem hp hmax
    rcases lt_or_le 0 (ComputePodResourceRequest p).milliCPU with hpos | hnonpos
    · rw [hcpuMax pods₂ p (hperm.mem_iff.mp hmem) hp hpos
        (fun q hq hqp hqne => hmax q (hperm.mem_iff.mpr hq) hqp hqne),
        hcpuMax pods₁ p hmem hp hpos hmax]
    · have hall : ∀ (l : List Pod), (∀ q ∈ l, q ∈ pods₁) →
          (CalculatePodsRequestedUsage l).LargestCPU = newEmptyResourceItem := by
        intro l hl
        unfold CalculatePodsRequestedUsage
        rw [foldl_podUsageStep_LargestCPU]
        apply pendingTrack_fold_le
        intro q hq hqp
        by_cases hqe : q = p
        · subst hqe
          simpa [podPair, newResourceItem, NewPodRequestedUsage, newEmptyResourceItem]
            using hnonpos
        · have := hmax q (hl q hq) hqp hqe
          simp only [podPair, newResourceItem, NewPodRequestedUsage, newEmptyResourceItem]
          omega
      rw [hall pods₂ (fun q hq => hperm.mem_iff.mpr hq), hall pods₁ (fun q hq => hq)]

/-- A sample Pending pod with memory-dominant request, used by the
concrete witnesses. -/
def samplePodA : Pod :=
  { status := { phase := "Pending", conditions := [], nominatedNodeName := "" },
    request := { milliCPU := 1, memory := 5 } }

/-- A sample Pending pod with CPU-dominant request, used by the
concrete witnesses. -/
def samplePodB : Pod :=
  { status := { phase := "Pending", conditions := [], nominatedNodeName := "" },
    request := { milliCPU := 9, memory := 2 } }

/-- Witness for C1: on the two-pod list [A, B], A (memory 5) is the
unique memory maximum and B (CPU 9) the unique CPU maximum, and the
trackers pick the corresponding full pairs, in either input order. -/
theorem claim1_largest_tracking_witness :
    (0:Int) < (ComputePodResourceRequest samplePodA).memory ∧
    (0:Int) < (ComputePodResourceRequest samplePodB).milliCPU ∧
    (CalculatePodsRequestedUsage [samplePodA, samplePodB]).LargestMemory = podPair samplePodA ∧
    (CalculatePodsRequestedUsage [samplePodA, samplePodB]).LargestCPU = podPair samplePodB ∧
    (CalculatePodsRequestedUsage [samplePodB, samplePodA]).LargestMemory =
      (CalculatePodsRequestedUsage [samplePodA, samplePodB]).LargestMemory ∧
    (CalculatePodsRequestedUsage [samplePodB, samplePodA]).LargestCPU =
      (CalculatePodsRequestedUsage [samplePodA, samplePodB]).LargestCPU := by
  refine ⟨by decide, by decide, ?_, ?_, ?_, ?_⟩
  · exact claim1_largest_tracking.1 [samplePodA, samplePodB] samplePodA
      (by decide) (by decide) (by decide) (by decide)
  · exact claim1_largest_tracking.2.1 [samplePodA, samplePodB] samplePodB
      (by decide) (by decide) (by decide) (by decide)
  · exact claim1_largest_tracking.2.2.1 [samplePodA, samplePodB] [samplePodB, samplePodA]
      samplePodA (by decide) (by decide) (by decide) (by decide)
  · exact claim1_largest_tracking.2.2.2 [samplePodA, samplePodB] [samplePodB, samplePodA]
      samplePodB (by decide) (by decide) (by decide) (by decide)

/-- C8: assuming the appended pod's extracted request is non-negative,
appending it to the input of `CalculatePodsRequestedUsage` never
decreases `Total.CPU` or `Total.Memory`. -/
theorem claim8_total_monotonicity (pods : List Pod) (p : Pod)
    (hcpu : 0 ≤ (ComputePodResourceRequest p).milliCPU)
    (hmem : 0 ≤ (ComputePodResourceRequest p).memory) :
    (CalculatePodsRequestedUsage pods).Total.cpu ≤
      (CalculatePodsRequestedUsage (pods ++ [p])).Total.cpu ∧
    (CalculatePodsRequestedUsage pods).Total.memory ≤
      (CalculatePodsRequestedUsage (pods ++ [p])).Total.memory := by
  have h1 := foldl_podUsageStep_Total pods NewPodRequestedUsage
  have h2 := foldl_podUsageStep_Total (pods ++ [p]) NewPodRequestedUsage
  unfold CalculatePodsRequestedUsage
  constructor
  · rw [h1.1, h2.1]
    simp
    omega
  · rw [h1.2, h2.2]
    simp
    omega

/-- Witness for C8 at a concrete pod and list. -/
theorem claim8_total_monotonicity_witness :
    (0:Int) ≤ 200 ∧ (0:Int) ≤ 300 ∧
    ((CalculatePodsRequestedUsage
        [{ status := { phase := "Running", conditions := [], nominatedNodeName := "" },
           request := { milliCPU := 100, memory := 50 } }]).Total.cpu ≤
      (CalculatePodsRequestedUsage
        ([{ status := { phase := "Running", conditions := [], nominatedNodeName := "" },
            request := { milliCPU := 100, memory := 50 } }] ++
         [{ status := { phase := "Pending", conditions := [], nominatedNodeName := "" },
            request := { milliCPU := 200, memory := 300 } }])).Total.cpu) := by
  refine ⟨by decide, by decide, ?_⟩
  exact (claim8_total_monotonicity
    [{ status := { phase := "Running", conditions := [], nominatedNodeName := "" },
       request := { milliCPU := 100, memory := 50 } }]
    { status := { phase := "Pending", conditions := [], nominatedNodeName := "" },
      request := { milliCPU := 200, memory := 300 } }
    (by decide) (by decide)).1

/-- Step lemma: `nodeCapacityStep` adds the node's allocatable pair into `Total`. -/
theorem nodeCapacityStep_Total (m : String → List Pod)
    (ret : NodeAvailableCapacity) (node : Node) :
    (nodeCapacityStep m ret node).Total =
      { cpu := ret.Total.cpu + node.allocatable.cpu,
        memory := ret.Total.memory + node.allocatable.memory } := by
  simp only [nodeCapacityStep]
  split <;> split <;> rfl

/-- Step lemma: `nodeCapacityStep` replaces `LargestAvailableCPU` with the node's
full allocatable pair exactly when available CPU strictly exceeds the
current field. -/
theorem nodeCapacityStep_LargestAvailableCPU (m : String → List Pod)
    (ret : NodeAvailableCapacity) (node : Node) :
    (nodeCapacityStep m ret node).LargestAvailableCPU =
      if ret.LargestAvailableCPU.cpu < (GetNodeAvailableResources node m).cpu
      then node.allocatable else ret.LargestAvailableCPU := by
  simp only [nodeCapacityStep, gt_iff_lt]
  split <;> split <;> rfl

/-- Step lemma: `nodeCapacityStep` replaces `LargestAvailableMemory` with the
node's full allocatable pair exactly when available memory strictly
exceeds the current field. -/
theorem nodeCapacityStep_LargestAvailableMemory (m : String → List Pod)
    (ret : NodeAvailableCapacity) (node : Node) :
    (nodeCapacityStep m ret node).LargestAvailableMemory =
      if ret.LargestAvailableMemory.memory < (GetNodeAvailableResources node m).memory
      then node.allocatable else ret.LargestAvailableMemory := by
  simp only [nodeCapacityStep, gt_iff_lt]
  split <;> split <;> rfl

/-- C5: a pod whose phase is not `Pending` adds its extracted request
into `Total` but leaves `LargestMemory` and `LargestCPU` exactly as
they would be without it, wherever it sits in the input list. -/
theorem claim5_nonpending_excluded (xs ys : List Pod) (p : Pod)
    (hph : p.status.phase ≠ "Pending") :
    (CalculatePodsRequestedUsage (xs ++ p :: ys)).Total.cpu =
      (CalculatePodsRequestedUsage (xs ++ ys)).Total.cpu +
        (ComputePodResourceRequest p).milliCPU ∧
    (CalculatePodsRequestedUsage (xs ++ p :: ys)).Total.memory =
      (CalculatePodsRequestedUsage (xs ++ ys)).Total.memory +
        (ComputePodResourceRequest p).memory ∧
    (CalculatePodsRequestedUsage (xs ++ p :: ys)).LargestMemory =
      (CalculatePodsRequestedUsage (xs ++ ys)).LargestMemory ∧
    (CalculatePodsRequestedUsage (xs ++ p :: ys)).LargestCPU =
      (CalculatePodsRequestedUsage (xs ++ ys)).LargestCPU := by
  have hskip : ∀ (val : ResourceItem → Int) (acc : ResourceItem),
      pendingTrack val acc p = acc := by
    intro val acc
    unfold pendingTrack
    rw [if_neg]
    rintro ⟨hp, _⟩
    exact hph hp
  refine ⟨?_, ?_, ?_, ?_⟩
  · unfold CalculatePodsRequestedUsage
    rw [(foldl_podUsageStep_Total (xs ++ p :: ys) NewPodRequestedUsage).1,
      (foldl_podUsageStep_Total (xs ++ ys) NewPodRequestedUsage).1]
    simp
    ring
  · unfold CalculatePodsRequestedUsage
    rw [(foldl_podUsageStep_Total (xs ++ p :: ys) NewPodRequestedUsage).2,
      (foldl_podUsageStep_Total (xs ++ ys) NewPodRequestedUsage).2]
    simp
    ring
  · unfold CalculatePodsRequestedUsage
    rw [foldl_podUsageStep_LargestMemory, foldl_podUsageStep_LargestMemory,
      List.foldl_append, List.foldl_append, List.foldl_cons, hskip]
  · unfold CalculatePodsRequestedUsage
    rw [foldl_podUsageStep_LargestCPU, foldl_podUsageStep_LargestCPU,
      List.foldl_append, List.foldl_append, List.foldl_cons, hskip]

/-- A sample Running pod with a large request, used by the concrete
witnesses. -/
def samplePodRun : Pod :=
  { status := { phase := "Running",
                conditions := [{ condType := "PodScheduled", condStatus := "True" }],
                nominatedNodeName := "n1" },
    request := { milliCPU := 1000, memory := 1000 } }

/-- Witness for C5: a Running pod requesting more memory and CPU than
the Pending pods adds to `Total` but leaves both trackers untouched. -/
theorem claim5_nonpending_excluded_witness :
    samplePodRun.status.phase ≠ "Pending" ∧
    (CalculatePodsRequestedUsage ([samplePodA] ++ samplePodRun :: [samplePodB])).Total.memory =
      (CalculatePodsRequestedUsage ([samplePodA] ++ [samplePodB])).Total.memory +
        (ComputePodResourceRequest samplePodRun).memory ∧
    (CalculatePodsRequestedUsage ([samplePodA] ++ samplePodRun :: [samplePodB])).LargestMemory =
      (CalculatePodsRequestedUsage ([samplePodA] ++ [samplePodB])).LargestMemory ∧
    (CalculatePodsRequestedUsage ([samplePodA] ++ samplePodRun :: [samplePodB])).LargestCPU =
      (CalculatePodsRequestedUsage ([samplePodA] ++ [samplePodB])).LargestCPU := by
  have h := claim5_nonpending_excluded [samplePodA] [samplePodB] samplePodRun (by decide)
  exact ⟨by decide, h.2.1, h.2.2.1, h.2.2.2⟩

/-- C6 counterexample: two Pending pods tied at the maximal memory
request 0 (with CPU 5): the first is NOT retained as `LargestMemory` —
the tracker keeps its zero initial pair instead of the first pod's
(5, 0) pair, because a tie with the zero start is never an excess. -/
theorem claim6_counterexample :
    (CalculatePodsRequestedUsage
      [{ status := { phase := "Pending", conditions := [], nominatedNodeName := "" },
         request := { milliCPU := 5, memory := 0 } },
       { status := { phase := "Pending", conditions := [], nominatedNodeName := "" },
         request := { milliCPU := 5, memory := 0 } }]).LargestMemory =
      { cpu := 0, memory := 0 } ∧
    podPair { status := { phase := "Pending", conditions := [], nominatedNodeName := "" },
              request := { milliCPU := 5, memory := 0 } } ≠
      ({ cpu := 0, memory := 0 } : ResourceItem) := by
  decide

/-- C6 (amended): the trackers use strict greater-than, so a value equal to the
current tracked maximum never replaces it: at step level for
`LargestMemory`, `LargestCPU`, `LargestAvailableCPU` and
`LargestAvailableMemory`, and on a two-pod list the first of two
equal-memory (resp. equal-CPU) Pending pods is the one retained. -/
theorem claim6_tie_first_wins :
    (∀ (ret : PodRequestedUsage) (pod : Pod),
      pod.status.phase = "Pending" →
      (ComputePodResourceRequest pod).memory = ret.LargestMemory.memory →
      (podUsageStep ret pod).LargestMemory = ret.LargestMemory) ∧
    (∀ (ret : PodRequestedUsage) (pod : Pod),
      pod.status.phase = "Pending" →
      (ComputePodResourceRequest pod).milliCPU = ret.LargestCPU.cpu →
      (podUsageStep ret pod).LargestCPU = ret.LargestCPU) ∧
    (∀ (p q : Pod),
      p.status.phase = "Pending" → q.status.phase = "Pending" →
      (ComputePodResourceRequest q).memory = (ComputePodResourceRequest p).memory →
      0 < (ComputePodResourceRequest p).memory →
      (CalculatePodsRequestedUsage [p, q]).LargestMemory = podPair p) ∧
    (∀ (p q : Pod),
      p.status.phase = "Pending" → q.status.phase = "Pending" →
      (ComputePodResourceRequest q).milliCPU = (ComputePodResourceRequest p).milliCPU →
      0 < (ComputePodResourceRequest p).milliCPU →
      (CalculatePodsRequestedUsage [p, q]).LargestCPU = podPair p) ∧
    (∀ (m : String → List Pod) (ret : NodeAvailableCapacity) (node : Node),
      (GetNodeAvailableResources node m).cpu = ret.LargestAvailableCPU.cpu →
      (nodeCapacityStep m ret node).LargestAvailableCPU = ret.LargestAvailableCPU) ∧
    (∀ (m : String → List Pod) (ret : NodeAvailableCapacity) (node : Node),
      (GetNodeAvailableResources node m).memory = ret.LargestAvailableMemory.memory →
      (nodeCapacityStep m ret node).LargestAvailableMemory = ret.LargestAvailableMemory) := by
  refine ⟨?_, ?_, ?_, ?_, ?_, ?_⟩
  · intro ret pod hp heq
    rw [podUsageStep_LargestMemory]
    unfold pendingTrack
    rw [if_neg]
    rintro ⟨_, hlt⟩
    simp only [podPair, newResourceItem] at hlt
    omega
  · intro ret pod hp heq
    rw [podUsageStep_LargestCPU]
    unfold pendingTrack
    rw [if_neg]
    rintro ⟨_, hlt⟩
    simp only [podPair, newResourceItem] at hlt
    omega
  · intro p q hp hq heq hpos
    unfold CalculatePodsRequestedUsage
    rw [foldl_podUsageStep_LargestMemory]
    have h1 : pendingTrack (fun r => r.memory) NewPodRequestedUsage.LargestMemory p =
        podPair p := by
      unfold pendingTrack
      rw [if_pos]
      exact ⟨hp, by simpa [NewPodRequestedUsage, newEmptyResourceItem, podPair,
        newResourceItem] using hpos⟩
    have h2 : pendingTrack (fun r => r.memory) (podPair p) q = podPair p := by
      unfold pendingTrack
      rw [if_neg]
      rintro ⟨_, hlt⟩
      simp only [podPair, newResourceItem] at hlt
      omega
    simp only [List.foldl_cons, List.foldl_nil, h1, h2]
  · intro p q hp hq heq hpos
    unfold CalculatePodsRequestedUsage
    rw [foldl_podUsageStep_LargestCPU]
    have h1 : pendingTrack (fun r => r.cpu) NewPodRequestedUsage.LargestCPU p =
        podPair p := by
      unfold pendingTrack
      rw [if_pos]
      exact ⟨hp, by simpa [NewPodRequestedUsage, newEmptyResourceItem, podPair,
        newResourceItem] using hpos⟩
    have h2 : pendingTrack (fun r => r.cpu) (podPair p) q = podPair p := by
      unfold pendingTrack
      rw [if_neg]
      rintro ⟨_, hlt⟩
      simp only [podPair, newResourceItem] at hlt
      omega
    simp only [List.foldl_cons, List.foldl_nil, h1, h2]
  · intro m ret node heq
    rw [nodeCapacityStep_LargestAvailableCPU, if_neg]
    omega
  · intro m ret node heq
    rw [nodeCapacityStep_LargestAvailableMemory, if_neg]
    omega

/-- Witness for C6: a concrete equal-memory and equal-CPU tie, at step
level and on two-pod lists, and a concrete node-level tie. -/
theorem claim6_tie_first_wins_witness :
    (podUsageStep (CalculatePodsRequestedUsage [samplePodA])
        { status := { phase := "Pending", conditions := [], nominatedNodeName := "" },
          request := { milliCPU := 3, memory := 5 } }).LargestMemory =
      (CalculatePodsRequestedUsage [samplePodA]).LargestMemory ∧
    (CalculatePodsRequestedUsage
        [samplePodA,
         { status := { phase := "Pending", conditions := [], nominatedNodeName := "" },
           request := { milliCPU := 3, memory := 5 } }]).LargestMemory = podPair samplePodA ∧
    (CalculatePodsRequestedUsage
        [samplePodB,
         { status := { phase := "Pending", conditions := [], nominatedNodeName := "" },
           request := { milliCPU := 9, memory := 7 } }]).LargestCPU = podPair samplePodB ∧
    (nodeCapacityStep (mapPods [])
        (CalculateNodesCapacity [{ name := "n1", allocatable := { cpu := 4, memory := 8 } }] [])
        { name := "n2", allocatable := { cpu := 4, memory := 8 } }).LargestAvailableCPU =
      (CalculateNodesCapacity [{ name := "n1", allocatable := { cpu := 4, memory := 8 } }]
        []).LargestAvailableCPU := by
  refine ⟨?_, ?_, ?_, ?_⟩
  · exact claim6_tie_first_wins.1 (CalculatePodsRequestedUsage [samplePodA])
      { status := { phase := "Pending", conditions := [], nominatedNodeName := "" },
        request := { milliCPU := 3, memory := 5 } } (by decide) (by decide)
  · exact claim6_tie_first_wins.2.2.1 samplePodA
      { status := { phase := "Pending", conditions := [], nominatedNodeName := "" },
        request := { milliCPU := 3, memory := 5 } } (by decide) (by decide) (by decide) (by decide)
  · exact claim6_tie_first_wins.2.2.2.1 samplePodB
      { status := { phase := "Pending", conditions := [], nominatedNodeName := "" },
        request := { milliCPU := 9, memory := 7 } } (by decide) (by decide) (by decide) (by decide)
  · exact claim6_tie_first_wins.2.2.2.2.1 (mapPods [])
      (CalculateNodesCapacity [{ name := "n1", allocatable := { cpu := 4, memory := 8 } }] [])
      { name := "n2", allocatable := { cpu := 4, memory := 8 } } (by decide)

/-- Spec-side restatement of the claimed `LargestAvailableCPU` rule,
written from the claim's words: scan the nodes, and whenever a node's
computed available CPU strictly exceeds the tracked `.cpu`, replace the
tracker with that node's full ALLOCATABLE pair. -/
def specLargestAvailableCPU (nodes : List Node) (pods : List Pod) : ResourceItem :=
  nodes.foldl
    (fun acc node =>
      if acc.cpu < (GetNodeAvailableResources node (mapPods pods)).cpu
      then node.allocatable else acc)
    newEmptyResourceItem

/-- Spec-side restatement of the claimed `LargestAvailableMemory` rule,
from the claim's words, by available memory. -/
def specLargestAvailableMemory (nodes : List Node) (pods : List Pod) : ResourceItem :=
  nodes.foldl
    (fun acc node =>
      if acc.memory < (GetNodeAvailableResources node (mapPods pods)).memory
      then node.allocatable else acc)
    newEmptyResourceItem

/-- The fold of `nodeCapacityStep` accumulates `Total` as the plain
sums of the nodes' allocatable quantities. -/
theorem foldl_nodeCapacityStep_Total (m : String → List Pod) (l : List Node) :
    ∀ acc : NodeAvailableCapacity,
      ((l.foldl (nodeCapacityStep m) acc).Total.cpu =
        acc.Total.cpu + (l.map (fun n => n.allocatable.cpu)).sum ∧
       (l.foldl (nodeCapacityStep m) acc).Total.memory =
        acc.Total.memory + (l.map (fun n => n.allocatable.memory)).sum) := by
  induction l with
  | nil => intro acc; simp
  | cons n rest ih =>
    intro acc
    have h := nodeCapacityStep_Total m acc n
    constructor
    · rw [List.foldl_cons, (ih (nodeCapacityStep m acc n)).1, h]
      simp
      ring
    · rw [List.foldl_cons, (ih (nodeCapacityStep m acc n)).2, h]
      simp
      ring

/-- The `LargestAvailableCPU` component of the fold is the fold of the
projected CPU tracking. -/
theorem foldl_nodeCapacityStep_LargestAvailableCPU (m : String → List Pod) (l : List Node) :
    ∀ acc : NodeAvailableCapacity,
      (l.foldl (nodeCapacityStep m) acc).LargestAvailableCPU =
        l.foldl
          (fun a n => if a.cpu < (GetNodeAvailableResources n m).cpu
            then n.allocatable else a)
          acc.LargestAvailableCPU := by
  induction l with
  | nil => intro acc; rfl
  | cons n rest ih =>
    intro acc
    rw [List.foldl_cons, List.foldl_cons, ih, nodeCapacityStep_LargestAvailableCPU]

/-- The `LargestAvailableMemory` component of the fold is the fold of
the projected memory tracking. -/
theorem foldl_nodeCapacityStep_LargestAvailableMemory (m : String → List Pod) (l : List Node) :
    ∀ acc : NodeAvailableCapacity,
      (l.foldl (nodeCapacityStep m) acc).LargestAvailableMemory =
        l.foldl
          (fun a n => if a.memory < (GetNodeAvailableResources n m).memory
            then n.allocatable else a)
          acc.LargestAvailableMemory := by
  induction l with
  | nil => intro acc; rfl
  | cons n rest ih =>
    intro acc
    rw [List.foldl_cons, List.foldl_cons, ih, nodeCapacityStep_LargestAvailableMemory]

/-- C3: `CalculateNodesCapacity` adds every supplied node's allocatable
CPU and memory into `Total` with no filtering, and its
`LargestAvailableCPU` / `LargestAvailableMemory` fields follow exactly
the claimed rule: replace with the node's full allocatable pair when
the node's available CPU (resp. memory) strictly exceeds the tracked
value. -/
theorem claim3_nodes_capacity (nodes : List Node) (pods : List Pod) :
    (CalculateNodesCapacity nodes pods).Total.cpu =
      (nodes.map (fun n => n.allocatable.cpu)).sum ∧
    (CalculateNodesCapacity nodes pods).Total.memory =
      (nodes.map (fun n => n.allocatable.memory)).sum ∧
    (CalculateNodesCapacity nodes pods).LargestAvailableCPU =
      specLargestAvailableCPU nodes pods ∧
    (CalculateNodesCapacity nodes pods).LargestAvailableMemory =
      specLargestAvailableMemory nodes pods := by
  refine ⟨?_, ?_, ?_, ?_⟩
  · unfold CalculateNodesCapacity
    rw [(foldl_nodeCapacityStep_Total (mapPods pods) nodes newNodeAvailableCapacity).1]
    simp [newNodeAvailableCapacity, newEmptyResourceItem]
  · unfold CalculateNodesCapacity
    rw [(foldl_nodeCapacityStep_Total (mapPods pods) nodes newNodeAvailableCapacity).2]
    simp [newNodeAvailableCapacity, newEmptyResourceItem]
  · unfold CalculateNodesCapacity specLargestAvailableCPU
    rw [foldl_nodeCapacityStep_LargestAvailableCPU]
    rfl
  · unfold CalculateNodesCapacity specLargestAvailableMemory
    rw [foldl_nodeCapacityStep_LargestAvailableMemory]
    rfl

/-- C4 counterexample: a pod carrying two `PodScheduled` conditions,
`False` first and `True` second, DOES contain a `PodScheduled`
condition with status `True`, yet `isPodScheduled` returns `false`:
the loop returns at the first matching condition type. -/
theorem claim4_counterexample :
    isPodScheduled
      { status := { phase := "Running",
                    conditions := [{ condType := "PodScheduled", condStatus := "False" },
                                   { condType := "PodScheduled", condStatus := "True" }],
                    nominatedNodeName := "" },
        request := { milliCPU := 0, memory := 0 } } = false ∧
    ({ status := { phase := "Running",
                   conditions := [{ condType := "PodScheduled", condStatus := "False" },
                                  { condType := "PodScheduled", condStatus := "True" }],
                   nominatedNodeName := "" },
       request := { milliCPU := 0, memory := 0 } } : Pod).status.conditions.any
      (fun c => decide (c.condType = "PodScheduled") && decide (c.condStatus = "True")) =
      true := by
  decide

/-- Helper for C4: over a condition list containing at most one
`PodScheduled` entry, the first-match loop agrees with containment. -/
theorem isPodScheduledAux_iff (l : List PodCondition)
    (huniq : (l.filter (fun c => decide (c.condType = "PodScheduled"))).length ≤ 1) :
    (isPodScheduledAux l = true ↔
      ∃ c ∈ l, c.condType = "PodScheduled" ∧ c.condStatus = "True") := by
  induction l with
  | nil => simp [isPodScheduledAux]
  | cons c rest ih =>
    by_cases hc : c.condType = "PodScheduled"
    · have hfilter :
          ((c :: rest).filter (fun x => decide (x.condType = "PodScheduled"))).length =
            (rest.filter (fun x => decide (x.condType = "PodScheduled"))).length + 1 := by
        simp [List.filter_cons, hc]
      have hrest : rest.filter (fun x => decide (x.condType = "PodScheduled")) = [] := by
        apply List.eq_nil_of_length_eq_zero
        omega
      have hnone : ∀ x ∈ rest, ¬ x.condType = "PodScheduled" := by
        intro x hx hxc
        have : x ∈ rest.filter (fun y => decide (y.condType = "PodScheduled")) :=
          List.mem_filter.mpr ⟨hx, by simp [hxc]⟩
        rw [hrest] at this
        exact List.not_mem_nil x this
      constructor
      · intro h
        refine ⟨c, List.mem_cons_self c rest, hc, ?_⟩
        simpa [isPodScheduledAux, hc] using h
      · rintro ⟨x, hx, hxc, hxs⟩
        rcases List.mem_cons.mp hx with h1 | h1
        · subst h1
          simp [isPodScheduledAux, hc, hxs]
        · exact absurd hxc (hnone x h1)
    · have huniq2 : (rest.filter (fun x => decide (x.condType = "PodScheduled"))).length ≤ 1 := by
        have : ((c :: rest).filter (fun x => decide (x.condType = "PodScheduled"))).length =
            (rest.filter (fun x => decide (x.condType = "PodScheduled"))).length := by
          simp [List.filter_cons, hc]
        omega
      rw [show isPodScheduledAux (c :: rest) = isPodScheduledAux rest by
        simp [isPodScheduledAux, hc]]
      rw [ih huniq2]
      constructor
      · rintro ⟨x, hx, hxc, hxs⟩
        exact ⟨x, List.mem_cons_of_mem c hx, hxc, hxs⟩
      · rintro ⟨x, hx, hxc, hxs⟩
        rcases List.mem_cons.mp hx with h1 | h1
        · subst h1; exact absurd hxc hc
        · exact ⟨x, h1, hxc, hxs⟩

/-- C4 (amended): for every pod whose condition list carries at most
one condition of type `PodScheduled` (the Kubernetes-typical shape),
`isPodScheduled` returns true iff the condition list contains a
`PodScheduled` condition whose status is `True`; with duplicated
`PodScheduled` entries the code instead answers from the first one. -/
theorem claim4_isPodScheduled (pod : Pod)
    (huniq : (pod.status.conditions.filter
        (fun c => decide (c.condType = "PodScheduled"))).length ≤ 1) :
    (isPodScheduled pod = true ↔
      ∃ c ∈ pod.status.conditions,
        c.condType = "PodScheduled" ∧ c.condStatus = "True") := by
  unfold isPodScheduled
  exact isPodScheduledAux_iff pod.status.conditions huniq

/-- Witness for C4 at a concrete pod with a single `PodScheduled`
condition of status `True`. -/
theorem claim4_isPodScheduled_witness :
    ((samplePodRun.status.conditions.filter
        (fun c => decide (c.condType = "PodScheduled"))).length ≤ 1) ∧
    (isPodScheduled samplePodRun = true ↔
      ∃ c ∈ samplePodRun.status.conditions,
        c.condType = "PodScheduled" ∧ c.condStatus = "True") := by
  exact ⟨by decide, claim4_isPodScheduled samplePodRun (by decide)⟩

/-- C9: on an empty pod list, `CalculatePodsRequestedUsage` returns the
all-zero `PodRequestedUsage`; on empty node and pod lists,
`CalculateNodesCapacity` returns the all-zero `NodeAvailableCapacity`;
and neither call produces an error there. -/
theorem claim9_empty_inputs_all_zero :
    CalculatePodsRequestedUsage [] =
      { Total := { cpu := 0, memory := 0 },
        LargestMemory := { cpu := 0, memory := 0 },
        LargestCPU := { cpu := 0, memory := 0 } } ∧
    CalculateNodesCapacity [] [] =
      { Total := { cpu := 0, memory := 0 },
        LargestAvailableMemory := { cpu := 0, memory := 0 },
        LargestAvailableCPU := { cpu := 0, memory := 0 } } ∧
    (CalculatePodsRequestedUsageE []).2 = none ∧
    (CalculateNodesCapacityE [] []).2 = none := by
  refine ⟨rfl, rfl, rfl, rfl⟩

/-- C10: for every input, the error component returned by
`CalculatePodsRequestedUsage` and by `CalculateNodesCapacity` is nil
(`none`): neither aggregator has an error-producing path. -/
theorem claim10_error_always_nil :
    (∀ pods : List Pod, (CalculatePodsRequestedUsageE pods).2 = none) ∧
    (∀ (nodes : List Node) (pods : List Pod),
      (CalculateNodesCapacityE nodes pods).2 = none) := by
  exact ⟨fun _ => rfl, fun _ _ => rfl⟩
